import Mathlib

/-!
Verification development for the dosctl discovery-code codec
(src/dosctl/lib/discovery.py) and the UPnP IGD port mapper
(src/dosctl/lib/upnp.py).

Strings of the Python source are modelled as `List Char`; machine text
operations (`str.upper`, `str.strip`, `str.split`) are modelled for the
ASCII range, which covers every string the codec produces or validates.
Fallible Python code (raising `ValueError` / `RuntimeError` / `UPnPError`)
is modelled with `Except String`.
-/

/-- Models `str.upper` on a single character, for the ASCII range:
codepoints 97..122 (a-z) map down by 32, everything else is unchanged. -/
def pyToUpper (c : Char) : Char :=
  if 97 ≤ c.toNat ∧ c.toNat ≤ 122 then Char.ofNat (c.toNat - 32) else c

/-- Models the whitespace class used by `str.strip()` / `str.split()`:
space, tab, newline, carriage return, vertical tab, form feed. -/
def isPySpace (c : Char) : Bool :=
  c.toNat = 32 || c.toNat = 9 || c.toNat = 10 || c.toNat = 13 ||
    c.toNat = 11 || c.toNat = 12

/-- Models `str.strip()`: drop whitespace from both ends. -/
def pyStrip (s : List Char) : List Char :=
  ((s.dropWhile isPySpace).reverse.dropWhile isPySpace).reverse

/-- Splitter recursion: returns the segment up to the first separator and
the list of remaining segments. -/
def splitGo (p : Char → Bool) : List Char → List Char × List (List Char)
  | [] => ([], [])
  | c :: cs =>
    let r := splitGo p cs
    if p c then ([], r.1 :: r.2) else (c :: r.1, r.2)

/-- Generic splitter mirroring Python `str.split(sep)` for a one-character
separator class given by `p`; always returns at least one (possibly empty)
segment, exactly like Python. -/
def splitP (p : Char → Bool) (s : List Char) : List (List Char) :=
  (splitGo p s).1 :: (splitGo p s).2

/-- Models Python `s.split(sep)` for a single-character separator. -/
def splitChar (sep : Char) (s : List Char) : List (List Char) :=
  splitP (fun c => c == sep) s

/-- Models Python `s.split()` (no argument): split on whitespace runs and
drop empty segments. -/
def pySplitWs (s : List Char) : List (List Char) :=
  (splitP isPySpace s).filter (fun w => !w.isEmpty)

/-- The base-36 alphabet `_B36` of discovery.py. -/
def _B36 : List Char := ("0123456789ABCDEFGHIJKLMNOPQRSTUVWXYZ").toList

/-- The loop body of `_to_base36`: peel `width` base-36 digits off `n`,
least significant first, returning the digit characters and the final
value of `n` (non-zero exactly when `n` did not fit in `width` digits).
The list index `n % 36` is always in bounds, so the `getD` default is
never used. -/
def toB36Digits : Nat → Nat → List Char × Nat
  | 0, n => ([], n)
  | w + 1, n =>
    let p := toB36Digits w (n / 36)
    (_B36.getD (n % 36) '0' :: p.1, p.2)

/-- Models `_to_base36` of discovery.py: zero-padded base-36 encoding of a
natural number (the Python negativity check is vacuous for `Nat`); raises
when the value does not fit in `width` digits. -/
def _to_base36 (n width : Nat) : Except String (List Char) :=
  let p := toB36Digits width n
  if p.2 > 0 then Except.error ("Value too large for given width")
  else Except.ok p.1.reverse

/-- The accumulator loop of `_from_base36`: left fold of `n * 36 + digit`,
raising on any character outside the base-36 alphabet. -/
def fromB36go : Nat → List Char → Except String Nat
  | acc, [] => Except.ok acc
  | acc, c :: cs =>
    if _B36.contains c then fromB36go (acc * 36 + _B36.indexOf c) cs
    else Except.error ("Invalid base36 character")

/-- Models `_from_base36` of discovery.py: uppercase the string, then fold
the base-36 digits. -/
def _from_base36 (s : List Char) : Except String Nat :=
  fromB36go 0 (s.map pyToUpper)

/-- Decimal digit character for a value in 0..9. -/
def decDigitChar (n : Nat) : Char := Char.ofNat (48 + n)

/-- Decimal rendering of an octet value in 0..255, as produced by
`socket.inet_ntoa` (and by Python `str` on such integers). -/
def octetToDec (n : Nat) : List Char :=
  if n < 10 then [decDigitChar n]
  else if n < 100 then [decDigitChar (n / 10), decDigitChar (n % 10)]
  else [decDigitChar (n / 100), decDigitChar (n / 10 % 10), decDigitChar (n % 10)]

/-- Models `socket.inet_ntoa` composed with `struct.pack("BBBB", ...)` as
used in discovery.py: render four octets as a canonical dotted quad. -/
def inet_ntoa (a b c d : Nat) : List Char :=
  octetToDec a ++ ('.' :: octetToDec b) ++ ('.' :: octetToDec c) ++ ('.' :: octetToDec d)

/-- Parses one decimal octet of a canonical dotted quad: nonempty, all
decimal digits, no leading zero (except "0" itself), value at most 255. -/
def decValGo : Nat → List Char → Option Nat
  | acc, [] => some acc
  | acc, c :: cs =>
    if 48 ≤ c.toNat ∧ c.toNat ≤ 57 then decValGo (acc * 10 + (c.toNat - 48)) cs
    else none

/-- Parses a canonical decimal octet string to its value. -/
def parseDecOctet (s : List Char) : Option Nat :=
  match s with
  | [] => none
  | c :: cs =>
    match decValGo 0 (c :: cs) with
    | none => none
    | some v =>
      if cs ≠ [] ∧ c = '0' then none
      else if v ≤ 255 then some v else none

/-- Models `socket.inet_aton` composed with `struct.unpack("BBBB", ...)` as
used in discovery.py, restricted to canonical dotted-quad strings (the
domain over which the claims quantify): split on dots into exactly four
canonical decimal octets. -/
def inet_aton (s : List Char) : Option (Nat × Nat × Nat × Nat) :=
  match splitChar '.' s with
  | [p1, p2, p3, p4] =>
    match parseDecOctet p1, parseDecOctet p2, parseDecOctet p3, parseDecOctet p4 with
    | some a, some b, some c, some d => some (a, b, c, d)
    | _, _, _, _ => none
  | _ => none

/-- Models `_load_word_list` of discovery.py. The file is given as its list
of lines; each line is stripped and, when nonempty, split on whitespace and
the tokens appended; loading fails exactly when the word count is not 256.
The word-list file itself (wordlist.txt) is not part of the source
snapshot, so the file content stays a parameter. -/
def _load_word_list (lines : List (List Char)) : Except String (List (List Char)) :=
  let words := lines.foldl (fun ws line =>
    let line := pyStrip line
    if line.isEmpty then ws else ws ++ pySplitWs line) []
  if words.length ≠ 256 then
    Except.error ("wordlist.txt must contain exactly 256 words")
  else Except.ok words

/-- The recursion behind `_WORD_TO_INDEX`: the Python dict comprehension
maps each word to its index, a later duplicate overwriting an earlier one,
so lookup returns the last index at which the word occurs. -/
def wordIndexFrom : List (List Char) → List Char → Nat → Option Nat
  | [], _, _ => none
  | x :: xs, w, i =>
    match wordIndexFrom xs w (i + 1) with
    | some j => some j
    | none => if x = w then some i else none

/-- Models lookup in the `_WORD_TO_INDEX` dict of discovery.py, built from
the word list `wl`. -/
def _WORD_TO_INDEX (wl : List (List Char)) (w : List Char) : Option Nat :=
  wordIndexFrom wl w 0

/-- The default IPX port, `DEFAULT_IPX_PORT` of network.py. -/
def DEFAULT_IPX_PORT : Nat := 19900

/-- Models `encode_discovery_code` of discovery.py, with the module-level
word list `WORD_LIST` passed explicitly (wordlist.txt is not in the source
snapshot). Error messages are abbreviated. -/
def encode_discovery_code (wl : List (List Char)) (ip : List Char)
    (port : Nat := DEFAULT_IPX_PORT) : Except String (List Char) :=
  match inet_aton ip with
  | none => Except.error ("illegal IP address string passed to inet_aton")
  | some (a, b, c, d) =>
    let word := wl.getD a []
    let remainder := b <<< 16 ||| c <<< 8 ||| d
    match _to_base36 remainder 5 with
    | Except.error e => Except.error e
    | Except.ok digits =>
      let code := word ++ ('-' :: digits)
      if port ≠ DEFAULT_IPX_PORT then
        match _to_base36 port 4 with
        | Except.error e => Except.error e
        | Except.ok port_b36 => Except.ok (code ++ ('-' :: 'P' :: port_b36))
      else Except.ok code

/-- Models `decode_discovery_code` of discovery.py, with the word list
passed explicitly. Error messages are abbreviated; interpolated values are
omitted from them. -/
def decode_discovery_code (wl : List (List Char)) (code0 : List Char) :
    Except String (List Char × Nat) :=
  let code := pyStrip (code0.map pyToUpper)
  let parts := splitChar '-' code
  if parts.length < 2 ∨ parts.length > 3 then
    Except.error ("Invalid discovery code format: expected WORD-NNNNN or WORD-NNNNN-Pxxxx")
  else
    let word := parts.getD 0 []
    let digits := parts.getD 1 []
    match _WORD_TO_INDEX wl word with
    | none => Except.error ("Unknown word in discovery code")
    | some a =>
      if digits.length ≠ 5 then
        Except.error ("Invalid digit section: expected 5 characters")
      else
        match _from_base36 digits with
        | Except.error e => Except.error e
        | Except.ok remainder =>
          if remainder > 0xFFFFFF then Except.error ("Digit section out of range")
          else
            let b := (remainder >>> 16) &&& 0xFF
            let c := (remainder >>> 8) &&& 0xFF
            let d := remainder &&& 0xFF
            let ip := inet_ntoa a b c d
            if parts.length = 3 then
              let port_part := parts.getD 2 []
              if ¬(port_part.head? = some 'P') ∨ port_part.length ≠ 5 then
                Except.error ("Invalid port section")
              else
                match _from_base36 (port_part.drop 1) with
                | Except.error e => Except.error e
                | Except.ok port =>
                  if port > 65535 then Except.error ("Port out of range")
                  else Except.ok (ip, port)
            else Except.ok (ip, DEFAULT_IPX_PORT)

/-!
UPnP IGD port mapper, from src/dosctl/lib/upnp.py. The mapper's network
interactions are modelled as explicit environment parameters: the outcome
of one `_soap_request` is a `NetResult` (response body, or an exception
raised by transport or by a SOAP fault status); the SSDP discovery phase
yields an optional LOCATION string; descriptor download and XML parsing
yield either an exception or the `(control_url, service_type)` pair that
`_parse_device_xml` returns. Each operation also reports the list of
`(action, body)` pairs it handed to `_soap_request`.
-/

/-- Outcome of one `_soap_request` call: a response body, or an exception
(transport error or SOAP fault). -/
inductive NetResult where
  | ok (response : String) : NetResult
  | exn : NetResult
  deriving DecidableEq, Repr

/-- One SOAP request as handed to `_soap_request(action, body)`. -/
structure SoapCall where
  action : String
  body : String
  deriving DecidableEq, Repr

/-- State of a `UPnPPortMapper` instance: the three attributes set in
`__init__`. -/
structure UPnPPortMapper where
  control_url : Option String
  service_type : Option String
  registered_mappings : List (Nat × String)
  deriving DecidableEq, Repr

/-- Models `UPnPPortMapper.__init__`: all attributes empty. -/
def UPnPPortMapper.init : UPnPPortMapper := ⟨none, none, []⟩

/-- Python truthiness of an optional string: `None` and the empty string
are falsy. -/
def optFalsy : Option String → Bool
  | none => true
  | some s => s.isEmpty

/-- The guard `not self._control_url or not self._service_type` shared by
the SOAP-issuing methods. -/
def UPnPPortMapper.noGateway (m : UPnPPortMapper) : Bool :=
  optFalsy m.control_url || optFalsy m.service_type

/-- The `_ADD_PORT_MAPPING_BODY` template of upnp.py. -/
def _ADD_PORT_MAPPING_BODY (service_type : String) (external_port : Nat)
    (protocol : String) (internal_port : Nat) (internal_ip : String)
    (description : String) (lease_duration : Nat) : String :=
  "<u:AddPortMapping xmlns:u=\"" ++ service_type ++
    "\"><NewRemoteHost></NewRemoteHost><NewExternalPort>" ++ toString external_port ++
    "</NewExternalPort><NewProtocol>" ++ protocol ++
    "</NewProtocol><NewInternalPort>" ++ toString internal_port ++
    "</NewInternalPort><NewInternalClient>" ++ internal_ip ++
    "</NewInternalClient><NewEnabled>1</NewEnabled><NewPortMappingDescription>" ++
    description ++ "</NewPortMappingDescription><NewLeaseDuration>" ++
    toString lease_duration ++ "</NewLeaseDuration></u:AddPortMapping>"

/-- The `_DELETE_PORT_MAPPING_BODY` template of upnp.py. -/
def _DELETE_PORT_MAPPING_BODY (service_type : String) (external_port : Nat)
    (protocol : String) : String :=
  "<u:DeletePortMapping xmlns:u=\"" ++ service_type ++
    "\"><NewRemoteHost></NewRemoteHost><NewExternalPort>" ++ toString external_port ++
    "</NewExternalPort><NewProtocol>" ++ protocol ++
    "</NewProtocol></u:DeletePortMapping>"

/-- The `_GET_EXTERNAL_IP_BODY` template of upnp.py. -/
def _GET_EXTERNAL_IP_BODY (service_type : String) : String :=
  "<u:GetExternalIPAddress xmlns:u=\"" ++ service_type ++
    "\"></u:GetExternalIPAddress>"

/-- Modelled from the spec: the body of the `GetSpecificPortMappingEntry`
query sent by `verify_port_mapping`, which is missing from the source
snapshot (only its tests and its caller in commands/net.py appear); the
spec names the SOAP action and section 6 lists its envelope alongside the
other three. -/
def _GET_SPECIFIC_PORT_MAPPING_BODY (service_type : String) (external_port : Nat)
    (protocol : String) : String :=
  "<u:GetSpecificPortMappingEntry xmlns:u=\"" ++ service_type ++
    "\"><NewRemoteHost></NewRemoteHost><NewExternalPort>" ++ toString external_port ++
    "</NewExternalPort><NewProtocol>" ++ protocol ++
    "</NewProtocol></u:GetSpecificPortMappingEntry>"

/-- Models `UPnPPortMapper.discover_gateway`. `ssdp_location` is the value
returned by `_ssdp_discover` (None when no reply produced a usable
LOCATION before the timeout; every error path inside `_ssdp_discover`
degrades to None). `device_xml` is the outcome of `_parse_device_xml`:
an exception (unreachable URL, unparsable XML), or the pair it returns —
`some (control_url, service_type)` encodes a service match (both set) and
`none` encodes its `(None, None)` no-match result, the only two shapes
that function produces. The method assigns both attributes from the pair
and returns whether the control URL is non-None. -/
def UPnPPortMapper.discover_gateway (m : UPnPPortMapper)
    (ssdp_location : Option String)
    (device_xml : Except Unit (Option (String × String))) :
    UPnPPortMapper × Bool :=
  match ssdp_location with
  | none => (m, false)
  | some location =>
    if location.isEmpty then (m, false)
    else
      match device_xml with
      | Except.error _ => (m, false)
      | Except.ok none =>
        ({ m with control_url := none, service_type := none }, false)
      | Except.ok (some (cu, st)) =>
        ({ m with control_url := some cu, service_type := some st }, true)

/-- Models `UPnPPortMapper.add_port_mapping`. Raises `UPnPError` when no
gateway has been discovered; otherwise issues one SOAP `AddPortMapping`
request, records the `(external_port, protocol)` pair on success, and
swallows any exception into a `false` return. -/
def UPnPPortMapper.add_port_mapping (m : UPnPPortMapper) (external_port : Nat)
    (internal_ip : String) (net : NetResult) (internal_port : Option Nat := none)
    (protocol : String := "UDP") (description : String := "dosctl")
    (lease_duration : Nat := 3600) :
    Except String (UPnPPortMapper × Bool × List SoapCall) :=
  if m.noGateway then
    Except.error ("No gateway discovered. Call discover_gateway() first.")
  else
    let iport := internal_port.getD external_port
    let body := _ADD_PORT_MAPPING_BODY (m.service_type.getD "") external_port
      protocol iport internal_ip description lease_duration
    match net with
    | NetResult.ok _ =>
      Except.ok ({ m with registered_mappings :=
        m.registered_mappings ++ [(external_port, protocol)] }, true,
        [⟨"AddPortMapping", body⟩])
    | NetResult.exn => Except.ok (m, false, [⟨"AddPortMapping", body⟩])

/-- Models `UPnPPortMapper.delete_port_mapping`. Returns false (without
raising) when no gateway has been discovered; otherwise issues one SOAP
`DeletePortMapping` request and, on success, removes the first occurrence
of the pair from the tracked list (`list.remove`, with its `ValueError`
for a missing pair swallowed). -/
def UPnPPortMapper.delete_port_mapping (m : UPnPPortMapper) (external_port : Nat)
    (net : NetResult) (protocol : String := "UDP") :
    UPnPPortMapper × Bool × List SoapCall :=
  if m.noGateway then (m, false, [])
  else
    let body := _DELETE_PORT_MAPPING_BODY (m.service_type.getD "") external_port protocol
    match net with
    | NetResult.ok _ =>
      ({ m with registered_mappings :=
        m.registered_mappings.erase (external_port, protocol) }, true,
        [⟨"DeletePortMapping", body⟩])
    | NetResult.exn => (m, false, [⟨"DeletePortMapping", body⟩])

/-- Models `UPnPPortMapper.get_external_ip`. Returns None (without raising)
when no gateway has been discovered; otherwise issues one SOAP
`GetExternalIPAddress` request. `extract_ip` abstracts the response-XML
walk (`ET.fromstring` plus the namespace-agnostic search for a nonempty
`NewExternalIPAddress` text); an exception anywhere degrades to None. -/
def UPnPPortMapper.get_external_ip (m : UPnPPortMapper) (net : NetResult)
    (extract_ip : String → Except Unit (Option String)) :
    Option String × List SoapCall :=
  if m.noGateway then (none, [])
  else
    let body := _GET_EXTERNAL_IP_BODY (m.service_type.getD "")
    match net with
    | NetResult.exn => (none, [⟨"GetExternalIPAddress", body⟩])
    | NetResult.ok response =>
      match extract_ip response with
      | Except.error _ => (none, [⟨"GetExternalIPAddress", body⟩])
      | Except.ok v => (v, [⟨"GetExternalIPAddress", body⟩])

/-- Modelled from the spec: `verify_port_mapping` is absent from the
source snapshot (its tests in tests/test_upnp.py and its caller in
commands/net.py remain). Per the spec it issues one SOAP
`GetSpecificPortMappingEntry` query and returns true exactly when the
router's response does not signal a fault; per its tests it returns false,
without raising, when no gateway has been discovered. -/
def UPnPPortMapper.verify_port_mapping (m : UPnPPortMapper) (external_port : Nat)
    (net : NetResult) (protocol : String := "UDP") :
    UPnPPortMapper × Bool × List SoapCall :=
  if m.noGateway then (m, false, [])
  else
    let body := _GET_SPECIFIC_PORT_MAPPING_BODY (m.service_type.getD "")
      external_port protocol
    match net with
    | NetResult.ok _ => (m, true, [⟨"GetSpecificPortMappingEntry", body⟩])
    | NetResult.exn => (m, false, [⟨"GetSpecificPortMappingEntry", body⟩])

/-- The loop of `UPnPPortMapper.cleanup` over the snapshot
`list(self._registered_mappings)`; `nets i` is the outcome of the SOAP
request made by the i-th delete call. -/
def cleanupGo (m : UPnPPortMapper) (snapshot : List (Nat × String))
    (nets : Nat → NetResult) (i : Nat) : UPnPPortMapper × List SoapCall :=
  match snapshot with
  | [] => (m, [])
  | (ep, proto) :: rest =>
    let r := m.delete_port_mapping ep (nets i) proto
    let next := cleanupGo r.1 rest nets (i + 1)
    (next.1, r.2.2 ++ next.2)

/-- Models `UPnPPortMapper.cleanup`: delete every tracked mapping, taking a
snapshot of the list first. -/
def UPnPPortMapper.cleanup (m : UPnPPortMapper) (nets : Nat → NetResult) :
    UPnPPortMapper × List SoapCall :=
  cleanupGo m m.registered_mappings nets 0

/-- Models `atexit.register`: appends the given callback (identified here
by the id of the mapper instance whose bound `cleanup` it is) to the
process's exit-hook registry; the module never deduplicates. -/
def atexit_register (callback : Nat) (registry : List Nat) : List Nat :=
  registry ++ [callback]

/-- Models `UPnPPortMapper.register_cleanup` for the mapper instance
identified by `mapper_id`: one unconditional `atexit.register(self.cleanup)`. -/
def register_cleanup (mapper_id : Nat) (registry : List Nat) : List Nat :=
  atexit_register mapper_id registry

/-!
Helper lemmas: characters, stripping, splitting, base conversions.
-/

theorem toNat_ofNat_of_lt {n : Nat} (h : n < 55296) : (Char.ofNat n).toNat = n := by
  have hv : n.isValidChar := Or.inl h
  rw [Char.ofNat, dif_pos hv]
  rfl

theorem pyToUpper_of_le (c : Char) (h : c.toNat ≤ 90) : pyToUpper c = c := by
  unfold pyToUpper
  rw [if_neg]
  omega

theorem pyToUpper_idem (c : Char) : pyToUpper (pyToUpper c) = pyToUpper c := by
  by_cases h : 97 ≤ c.toNat ∧ c.toNat ≤ 122
  · have h1 : pyToUpper c = Char.ofNat (c.toNat - 32) := by
      unfold pyToUpper
      rw [if_pos h]
    rw [h1]
    apply pyToUpper_of_le
    rw [toNat_ofNat_of_lt (by omega)]
    omega
  · have h1 : pyToUpper c = c := by
      unfold pyToUpper
      rw [if_neg h]
    rw [h1, h1]

theorem ne_of_toNat_ne {c d : Char} (h : c.toNat ≠ d.toNat) : c ≠ d := by
  intro he
  exact h (congrArg Char.toNat he)

theorem isPySpace_eq_false {c : Char} (h : 33 ≤ c.toNat) : isPySpace c = false := by
  unfold isPySpace
  simp only [Bool.or_eq_false_iff, decide_eq_false_iff_not]
  omega

theorem dropWhile_eq_self_of_none {p : Char → Bool} {l : List Char}
    (h : ∀ c ∈ l, p c = false) : l.dropWhile p = l := by
  cases l with
  | nil => rfl
  | cons c cs =>
    rw [List.dropWhile_cons, if_neg]
    simp [h c (List.mem_cons_self c cs)]

theorem pyStrip_eq_self {l : List Char} (h : ∀ c ∈ l, isPySpace c = false) :
    pyStrip l = l := by
  unfold pyStrip
  rw [dropWhile_eq_self_of_none h, dropWhile_eq_self_of_none, List.reverse_reverse]
  intro c hc
  exact h c (List.mem_reverse.mp hc)

theorem splitGo_no_sep {p : Char → Bool} {l : List Char}
    (h : ∀ c ∈ l, p c = false) : splitGo p l = (l, []) := by
  induction l with
  | nil => rfl
  | cons c cs ih =>
    simp only [splitGo, ih (fun x hx => h x (List.mem_cons_of_mem c hx))]
    rw [if_neg]
    simp [h c (List.mem_cons_self c cs)]

theorem splitP_no_sep {p : Char → Bool} {l : List Char}
    (h : ∀ c ∈ l, p c = false) : splitP p l = [l] := by
  unfold splitP
  rw [splitGo_no_sep h]

theorem splitGo_append_sep {p : Char → Bool} {x : List Char} {sep : Char}
    (hx : ∀ c ∈ x, p c = false) (hsep : p sep = true) (rest : List Char) :
    splitGo p (x ++ sep :: rest) = (x, (splitGo p rest).1 :: (splitGo p rest).2) := by
  induction x with
  | nil =>
    simp only [List.nil_append, splitGo]
    rw [if_pos hsep]
  | cons c cs ih =>
    have hcs := ih (fun d hd => hx d (List.mem_cons_of_mem c hd))
    have hc : p c = false := hx c (List.mem_cons_self c cs)
    simp [List.cons_append, splitGo, hcs, hc]

theorem splitP_append_sep {p : Char → Bool} {x : List Char} {sep : Char}
    (hx : ∀ c ∈ x, p c = false) (hsep : p sep = true) (rest : List Char) :
    splitP p (x ++ sep :: rest) = x :: splitP p rest := by
  unfold splitP
  rw [splitGo_append_sep hx hsep]

theorem map_pyToUpper_self {l : List Char} (h : ∀ c ∈ l, pyToUpper c = c) :
    l.map pyToUpper = l := by
  induction l with
  | nil => rfl
  | cons c cs ih =>
    simp only [List.map_cons, h c (List.mem_cons_self c cs),
      ih (fun x hx => h x (List.mem_cons_of_mem c hx))]

theorem B36_digit_facts : ∀ j : Fin 36,
    _B36.contains (_B36.getD j.val '0') = true ∧
    _B36.indexOf (_B36.getD j.val '0') = j.val ∧
    48 ≤ (_B36.getD j.val '0').toNat ∧ (_B36.getD j.val '0').toNat ≤ 90 := by
  decide

theorem toB36Digits_length : ∀ (w n : Nat), (toB36Digits w n).1.length = w := by
  intro w
  induction w with
  | zero => intro n; rfl
  | succ w ih => intro n; simp [toB36Digits, ih]

theorem toB36Digits_snd : ∀ (w n : Nat), (toB36Digits w n).2 = n / 36 ^ w := by
  intro w
  induction w with
  | zero => intro n; simp [toB36Digits]
  | succ w ih =>
    intro n
    simp only [toB36Digits, ih]
    rw [Nat.div_div_eq_div_mul, pow_succ, mul_comm (36 ^ w) 36]

theorem toB36Digits_mem : ∀ {w n : Nat} {c : Char}, c ∈ (toB36Digits w n).1 →
    ∃ j : Fin 36, c = _B36.getD j.val '0' := by
  intro w
  induction w with
  | zero => intro n c hc; simp [toB36Digits] at hc
  | succ w ih =>
    intro n c hc
    simp only [toB36Digits, List.mem_cons] at hc
    rcases hc with hc | hc
    · exact ⟨⟨n % 36, Nat.mod_lt n (by norm_num)⟩, hc⟩
    · exact ih hc

theorem toB36Digits_char_bounds {w n : Nat} {c : Char}
    (hc : c ∈ (toB36Digits w n).1) : 48 ≤ c.toNat ∧ c.toNat ≤ 90 := by
  obtain ⟨j, hj⟩ := toB36Digits_mem hc
  subst hj
  exact (B36_digit_facts j).2.2

theorem fromB36go_append {acc v : Nat} {xs : List Char} (ys : List Char)
    (h : fromB36go acc xs = Except.ok v) :
    fromB36go acc (xs ++ ys) = fromB36go v ys := by
  induction xs generalizing acc with
  | nil =>
    simp only [fromB36go, Except.ok.injEq] at h
    subst h
    rfl
  | cons c cs ih =>
    rw [List.cons_append]
    simp only [fromB36go] at h ⊢
    by_cases hc : _B36.contains c
    · rw [if_pos hc] at h ⊢
      exact ih h
    · rw [if_neg hc] at h
      exact absurd h (by simp)

theorem fromB36go_toB36 : ∀ (w n acc : Nat),
    fromB36go acc ((toB36Digits w n).1.reverse) =
      Except.ok (acc * 36 ^ w + n % 36 ^ w) := by
  intro w
  induction w with
  | zero => intro n acc; simp [toB36Digits, fromB36go, Nat.mod_one]
  | succ w ih =>
    intro n acc
    simp only [toB36Digits, List.reverse_cons]
    rw [fromB36go_append _ (ih (n / 36) acc)]
    have hj := B36_digit_facts ⟨n % 36, Nat.mod_lt n (by norm_num)⟩
    simp only [fromB36go, hj.1, if_true, hj.2.1]
    congr 1
    have hmod : n % 36 ^ (w + 1) = n % 36 + 36 * (n / 36 % 36 ^ w) := by
      rw [pow_succ, mul_comm (36 ^ w) 36, Nat.mod_mul]
    rw [hmod, pow_succ]
    ring

theorem b36_roundtrip {n w : Nat} (h : n < 36 ^ w) :
    _to_base36 n w = Except.ok ((toB36Digits w n).1.reverse) ∧
    _from_base36 ((toB36Digits w n).1.reverse) = Except.ok n := by
  constructor
  · unfold _to_base36
    rw [if_neg]
    simp [toB36Digits_snd, Nat.div_eq_of_lt h]
  · unfold _from_base36
    rw [map_pyToUpper_self]
    · rw [fromB36go_toB36]
      simp [Nat.mod_eq_of_lt h]
    · intro c hc
      have := toB36Digits_char_bounds (List.mem_reverse.mp hc)
      exact pyToUpper_of_le c this.2

set_option maxRecDepth 4000

theorem octet_roundtrip : ∀ a : Fin 256, parseDecOctet (octetToDec a.val) = some a.val := by
  decide

theorem octet_chars : ∀ a : Fin 256, ∀ c ∈ octetToDec a.val,
    48 ≤ c.toNat ∧ c.toNat ≤ 57 := by
  decide

theorem bytes_or_eq {b c d : Nat} (hb : b < 256) (hc : c < 256) (hd : d < 256) :
    b <<< 16 ||| c <<< 8 ||| d = (b * 256 + c) * 256 + d := by
  have e8 : (2:Nat) ^ 8 = 256 := by norm_num
  have e16 : (2:Nat) ^ 16 = 65536 := by norm_num
  rw [Nat.shiftLeft_eq, Nat.shiftLeft_eq]
  have h1 : 2 ^ 16 * b + 2 ^ 8 * c = 2 ^ 16 * b ||| 2 ^ 8 * c :=
    Nat.mul_add_lt_is_or (by rw [e8, e16]; omega) b
  have h2 : 2 ^ 8 * (2 ^ 8 * b + c) + d = 2 ^ 8 * (2 ^ 8 * b + c) ||| d :=
    Nat.mul_add_lt_is_or (by rw [e8]; omega) _
  rw [mul_comm b, mul_comm c, ← h1]
  have h3 : 2 ^ 16 * b + 2 ^ 8 * c = 2 ^ 8 * (2 ^ 8 * b + c) := by ring
  rw [h3, ← h2, e8]
  ring

theorem bytes_extract {b c d : Nat} (hb : b < 256) (hc : c < 256) (hd : d < 256) :
    (((b * 256 + c) * 256 + d) >>> 16) &&& 0xFF = b ∧
    (((b * 256 + c) * 256 + d) >>> 8) &&& 0xFF = c ∧
    ((b * 256 + c) * 256 + d) &&& 0xFF = d := by
  have hff : (0xFF : Nat) = 2 ^ 8 - 1 := by norm_num
  rw [hff, Nat.shiftRight_eq_div_pow, Nat.shiftRight_eq_div_pow,
    Nat.and_pow_two_sub_one_eq_mod, Nat.and_pow_two_sub_one_eq_mod,
    Nat.and_pow_two_sub_one_eq_mod]
  have e8 : (2:Nat) ^ 8 = 256 := by norm_num
  have e16 : (2:Nat) ^ 16 = 65536 := by norm_num
  rw [e8, e16]
  omega

theorem wordIndexFrom_of_not_mem {xs : List (List Char)} {w : List Char}
    (h : w ∉ xs) : ∀ i, wordIndexFrom xs w i = none := by
  induction xs with
  | nil => intro i; rfl
  | cons x xs ih =>
    intro i
    simp only [List.mem_cons, not_or] at h
    simp only [wordIndexFrom, ih h.2]
    rw [if_neg]
    exact fun he => h.1 he.symm

theorem wordIndexFrom_nodup {xs : List (List Char)} (hn : xs.Nodup) :
    ∀ {j : Nat} {w : List Char}, xs[j]? = some w →
    ∀ i, wordIndexFrom xs w i = some (i + j) := by
  induction xs with
  | nil => intro j w hj; simp at hj
  | cons x xs ih =>
    intro j w hj i
    rcases List.nodup_cons.mp hn with ⟨hx, hxs⟩
    cases j with
    | zero =>
      simp only [List.getElem?_cons_zero, Option.some.injEq] at hj
      subst hj
      simp only [wordIndexFrom, wordIndexFrom_of_not_mem hx]
      simp
    | succ j =>
      simp only [List.getElem?_cons_succ] at hj
      simp only [wordIndexFrom, ih hxs hj (i + 1)]
      congr 1
      omega

theorem char_facts_of_bounds {c : Char} (h1 : 48 ≤ c.toNat) (h2 : c.toNat ≤ 90) :
    pyToUpper c = c ∧ isPySpace c = false ∧ (c == '-') = false := by
  have h45 : ('-' : Char).toNat = 45 := rfl
  refine ⟨pyToUpper_of_le c h2, isPySpace_eq_false (by omega), ?_⟩
  simp only [beq_eq_false_iff_ne]
  exact ne_of_toNat_ne (by omega)

theorem getD_mem_of_lt {wl : List (List Char)} {a : Nat} (ha : a < wl.length) :
    wl.getD a [] ∈ wl := by
  rw [List.getD_eq_getElem?_getD, List.getElem?_eq_getElem ha]
  exact List.getElem_mem ha

theorem word_char_bounds {wl : List (List Char)}
    (hupper : ∀ w ∈ wl, ∀ ch ∈ w, 65 ≤ ch.toNat ∧ ch.toNat ≤ 90)
    {a : Nat} (ha : a < wl.length) :
    ∀ c ∈ wl.getD a [], 48 ≤ c.toNat ∧ c.toNat ≤ 90 := by
  intro c hc
  have h := hupper _ (getD_mem_of_lt ha) c hc
  omega

theorem inet_aton_ntoa {a b c d : Nat} (ha : a < 256) (hb : b < 256)
    (hc : c < 256) (hd : d < 256) :
    inet_aton (inet_ntoa a b c d) = some (a, b, c, d) := by
  have hdot : (fun x => x == '.') '.' = true := by decide
  have hnd : ∀ {v : Nat}, v < 256 → ∀ x ∈ octetToDec v, (x == '.') = false := by
    intro v hv x hx
    have h := octet_chars ⟨v, hv⟩ x hx
    have h46 : ('.' : Char).toNat = 46 := rfl
    simp only [beq_eq_false_iff_ne]
    exact ne_of_toNat_ne (by omega)
  have hsplit : splitChar '.' (inet_ntoa a b c d) =
      [octetToDec a, octetToDec b, octetToDec c, octetToDec d] := by
    unfold inet_ntoa splitChar
    rw [List.append_assoc, List.append_assoc]
    rw [List.cons_append, List.cons_append]
    rw [splitP_append_sep (hnd ha) hdot]
    rw [splitP_append_sep (hnd hb) hdot]
    rw [splitP_append_sep (hnd hc) hdot]
    rw [splitP_no_sep (hnd hd)]
  unfold inet_aton
  rw [hsplit]
  have hra := octet_roundtrip ⟨a, ha⟩
  have hrb := octet_roundtrip ⟨b, hb⟩
  have hrc := octet_roundtrip ⟨c, hc⟩
  have hrd := octet_roundtrip ⟨d, hd⟩
  simp only at hra hrb hrc hrd
  simp [hra, hrb, hrc, hrd]

theorem encode_eval {wl : List (List Char)} {a b c d port : Nat}
    (ha : a < 256) (hb : b < 256) (hc : c < 256) (hd : d < 256)
    (hport : port ≤ 65535) :
    encode_discovery_code wl (inet_ntoa a b c d) port =
      if port = DEFAULT_IPX_PORT then
        Except.ok (wl.getD a [] ++
          ('-' :: (toB36Digits 5 ((b * 256 + c) * 256 + d)).1.reverse))
      else
        Except.ok (wl.getD a [] ++
          ('-' :: (toB36Digits 5 ((b * 256 + c) * 256 + d)).1.reverse) ++
          ('-' :: 'P' :: (toB36Digits 4 port).1.reverse)) := by
  have e5 : (36 : Nat) ^ 5 = 60466176 := by norm_num
  have e4 : (36 : Nat) ^ 4 = 1679616 := by norm_num
  have h5 : (b * 256 + c) * 256 + d < 36 ^ 5 := by omega
  have h4 : port < 36 ^ 4 := by omega
  simp only [encode_discovery_code, inet_aton_ntoa ha hb hc hd]
  rw [bytes_or_eq hb hc hd, (b36_roundtrip h5).1]
  by_cases hp : port = DEFAULT_IPX_PORT
  · simp [hp]
  · simp [hp, (b36_roundtrip h4).1]

theorem decode_encoded_aux {wl : List (List Char)} {a b c d : Nat}
    (hwlen : wl.length = 256) (hnodup : wl.Nodup)
    (hupper : ∀ w ∈ wl, ∀ ch ∈ w, 65 ≤ ch.toNat ∧ ch.toNat ≤ 90)
    (ha : a < 256) (hb : b < 256) (hc : c < 256) (hd : d < 256) :
    (∀ x ∈ wl.getD a [], 48 ≤ x.toNat ∧ x.toNat ≤ 90) ∧
    (∀ x ∈ (toB36Digits 5 ((b * 256 + c) * 256 + d)).1.reverse,
      48 ≤ x.toNat ∧ x.toNat ≤ 90) ∧
    _WORD_TO_INDEX wl (wl.getD a []) = some a := by
  have ha' : a < wl.length := by omega
  refine ⟨word_char_bounds hupper ha', ?_, ?_⟩
  · intro x hx
    exact toB36Digits_char_bounds (List.mem_reverse.mp hx)
  · have hw : wl.getD a [] = wl[a] := by
      rw [List.getD_eq_getElem?_getD, List.getElem?_eq_getElem ha']
      rfl
    unfold _WORD_TO_INDEX
    rw [hw]
    have := wordIndexFrom_nodup hnodup (List.getElem?_eq_getElem ha') 0
    rw [this]
    simp

theorem decode_encoded_default {wl : List (List Char)} {a b c d : Nat}
    (hwlen : wl.length = 256) (hnodup : wl.Nodup)
    (hupper : ∀ w ∈ wl, ∀ ch ∈ w, 65 ≤ ch.toNat ∧ ch.toNat ≤ 90)
    (ha : a < 256) (hb : b < 256) (hc : c < 256) (hd : d < 256) :
    decode_discovery_code wl (wl.getD a [] ++
        ('-' :: (toB36Digits 5 ((b * 256 + c) * 256 + d)).1.reverse)) =
      Except.ok (inet_ntoa a b c d, DEFAULT_IPX_PORT) := by
  obtain ⟨hwb, hdb, hidx⟩ :=
    decode_encoded_aux hwlen hnodup hupper ha hb hc hd
  have e5 : (36 : Nat) ^ 5 = 60466176 := by norm_num
  have h5 : (b * 256 + c) * 256 + d < 36 ^ 5 := by omega
  have hnormchars : ∀ x ∈ wl.getD a [] ++
      ('-' :: (toB36Digits 5 ((b * 256 + c) * 256 + d)).1.reverse),
      pyToUpper x = x ∧ isPySpace x = false := by
    intro x hx
    rcases List.mem_append.mp hx with hx | hx
    · have := hwb x hx
      exact ⟨(char_facts_of_bounds this.1 this.2).1,
        (char_facts_of_bounds this.1 this.2).2.1⟩
    · rcases List.mem_cons.mp hx with hx | hx
      · subst hx
        exact ⟨by decide, by decide⟩
      · have := hdb x hx
        exact ⟨(char_facts_of_bounds this.1 this.2).1,
          (char_facts_of_bounds this.1 this.2).2.1⟩
  have hstrip : pyStrip ((wl.getD a [] ++
      ('-' :: (toB36Digits 5 ((b * 256 + c) * 256 + d)).1.reverse)).map pyToUpper) =
      wl.getD a [] ++
        ('-' :: (toB36Digits 5 ((b * 256 + c) * 256 + d)).1.reverse) := by
    rw [map_pyToUpper_self (fun x hx => (hnormchars x hx).1),
      pyStrip_eq_self (fun x hx => (hnormchars x hx).2)]
  have hsplit : splitChar '-' (wl.getD a [] ++
      ('-' :: (toB36Digits 5 ((b * 256 + c) * 256 + d)).1.reverse)) =
      [wl.getD a [], (toB36Digits 5 ((b * 256 + c) * 256 + d)).1.reverse] := by
    unfold splitChar
    rw [splitP_append_sep
      (fun x hx => (char_facts_of_bounds (hwb x hx).1 (hwb x hx).2).2.2)
      (by decide),
      splitP_no_sep
      (fun x hx => (char_facts_of_bounds (hdb x hx).1 (hdb x hx).2).2.2)]
  have hlen5 : (toB36Digits 5 ((b * 256 + c) * 256 + d)).1.reverse.length = 5 := by
    rw [List.length_reverse, toB36Digits_length]
  have hfrom5 := (b36_roundtrip h5).2
  have hbe := bytes_extract hb hc hd
  have hrle : ¬((b * 256 + c) * 256 + d > 0xFFFFFF) := by omega
  simp only [decode_discovery_code]
  rw [hstrip, hsplit]
  simp only [List.length_cons, List.length_nil, List.getD_cons_zero,
    List.getD_cons_succ]
  rw [hidx, hfrom5]
  simp [hlen5, hrle, hbe.1, hbe.2.1, hbe.2.2]

theorem decode_encoded_port {wl : List (List Char)} {a b c d port : Nat}
    (hwlen : wl.length = 256) (hnodup : wl.Nodup)
    (hupper : ∀ w ∈ wl, ∀ ch ∈ w, 65 ≤ ch.toNat ∧ ch.toNat ≤ 90)
    (ha : a < 256) (hb : b < 256) (hc : c < 256) (hd : d < 256)
    (hport : port ≤ 65535) :
    decode_discovery_code wl (wl.getD a [] ++
        ('-' :: (toB36Digits 5 ((b * 256 + c) * 256 + d)).1.reverse) ++
        ('-' :: 'P' :: (toB36Digits 4 port).1.reverse)) =
      Except.ok (inet_ntoa a b c d, port) := by
  obtain ⟨hwb, hdb, hidx⟩ :=
    decode_encoded_aux hwlen hnodup hupper ha hb hc hd
  have e5 : (36 : Nat) ^ 5 = 60466176 := by norm_num
  have e4 : (36 : Nat) ^ 4 = 1679616 := by norm_num
  have h5 : (b * 256 + c) * 256 + d < 36 ^ 5 := by omega
  have h4 : port < 36 ^ 4 := by omega
  have hpb : ∀ x ∈ (toB36Digits 4 port).1.reverse,
      48 ≤ x.toNat ∧ x.toNat ≤ 90 := by
    intro x hx
    exact toB36Digits_char_bounds (List.mem_reverse.mp hx)
  have hnormchars : ∀ x ∈ wl.getD a [] ++
      ('-' :: (toB36Digits 5 ((b * 256 + c) * 256 + d)).1.reverse) ++
      ('-' :: 'P' :: (toB36Digits 4 port).1.reverse),
      pyToUpper x = x ∧ isPySpace x = false := by
    intro x hx
    rcases List.mem_append.mp hx with hx | hx
    · rcases List.mem_append.mp hx with hx | hx
      · have := hwb x hx
        exact ⟨(char_facts_of_bounds this.1 this.2).1,
          (char_facts_of_bounds this.1 this.2).2.1⟩
      · rcases List.mem_cons.mp hx with hx | hx
        · subst hx
          exact ⟨by decide, by decide⟩
        · have := hdb x hx
          exact ⟨(char_facts_of_bounds this.1 this.2).1,
            (char_facts_of_bounds this.1 this.2).2.1⟩
    · rcases List.mem_cons.mp hx with hx | hx
      · subst hx
        exact ⟨by decide, by decide⟩
      · rcases List.mem_cons.mp hx with hx | hx
        · subst hx
          exact ⟨by decide, by decide⟩
        · have := hpb x hx
          exact ⟨(char_facts_of_bounds this.1 this.2).1,
            (char_facts_of_bounds this.1 this.2).2.1⟩
  have hstrip : pyStrip ((wl.getD a [] ++
      ('-' :: (toB36Digits 5 ((b * 256 + c) * 256 + d)).1.reverse) ++
      ('-' :: 'P' :: (toB36Digits 4 port).1.reverse)).map pyToUpper) =
      wl.getD a [] ++
        ('-' :: (toB36Digits 5 ((b * 256 + c) * 256 + d)).1.reverse) ++
        ('-' :: 'P' :: (toB36Digits 4 port).1.reverse) := by
    rw [map_pyToUpper_self (fun x hx => (hnormchars x hx).1),
      pyStrip_eq_self (fun x hx => (hnormchars x hx).2)]
  have hsplit : splitChar '-' (wl.getD a [] ++
      ('-' :: (toB36Digits 5 ((b * 256 + c) * 256 + d)).1.reverse) ++
      ('-' :: 'P' :: (toB36Digits 4 port).1.reverse)) =
      [wl.getD a [], (toB36Digits 5 ((b * 256 + c) * 256 + d)).1.reverse,
        'P' :: (toB36Digits 4 port).1.reverse] := by
    unfold splitChar
    rw [List.append_assoc, List.cons_append]
    rw [splitP_append_sep
      (fun x hx => (char_facts_of_bounds (hwb x hx).1 (hwb x hx).2).2.2)
      (by decide),
      splitP_append_sep
      (fun x hx => (char_facts_of_bounds (hdb x hx).1 (hdb x hx).2).2.2)
      (by decide),
      splitP_no_sep]
    intro x hx
    rcases List.mem_cons.mp hx with hx | hx
    · subst hx
      decide
    · exact (char_facts_of_bounds (hpb x hx).1 (hpb x hx).2).2.2
  have hlen5 : (toB36Digits 5 ((b * 256 + c) * 256 + d)).1.reverse.length = 5 := by
    rw [List.length_reverse, toB36Digits_length]
  have hlenp : ('P' :: (toB36Digits 4 port).1.reverse).length = 5 := by
    rw [List.length_cons, List.length_reverse, toB36Digits_length]
  have hfrom5 := (b36_roundtrip h5).2
  have hfrom4 := (b36_roundtrip h4).2
  have hbe := bytes_extract hb hc hd
  have hrle : ¬((b * 256 + c) * 256 + d > 0xFFFFFF) := by omega
  have hple : ¬(port > 65535) := by omega
  simp only [decode_discovery_code]
  rw [hstrip, hsplit]
  simp only [List.length_cons, List.length_nil, List.getD_cons_zero,
    List.getD_cons_succ]
  rw [hidx, hfrom5]
  simp [hlen5, hlenp, hrle, hple, hbe.1, hbe.2.1, hbe.2.2, hfrom4,
    List.drop_succ_cons, List.drop_zero, toB36Digits_length]

/-!
Claim theorems.
-/

/-- C1: for every IPv4 address given as a canonical dotted-quad string
(ranged over all 2^32 octet quadruples, rendered by `inet_ntoa`) and every
port in [0, 65535], `decode_discovery_code` of `encode_discovery_code`
returns exactly that address string and port. The word list (wordlist.txt
is absent from the source snapshot) is any list satisfying the spec's
build-time invariant: 256 distinct uppercase tokens. -/
theorem C1_encode_decode_roundtrip (wl : List (List Char)) (a b c d port : Nat)
    (hwlen : wl.length = 256) (hnodup : wl.Nodup)
    (hupper : ∀ w ∈ wl, ∀ ch ∈ w, 65 ≤ ch.toNat ∧ ch.toNat ≤ 90)
    (ha : a < 256) (hb : b < 256) (hc : c < 256) (hd : d < 256)
    (hport : port ≤ 65535) :
    ∃ code, encode_discovery_code wl (inet_ntoa a b c d) port = Except.ok code ∧
      decode_discovery_code wl code = Except.ok (inet_ntoa a b c d, port) := by
  by_cases hp : port = DEFAULT_IPX_PORT
  · refine ⟨wl.getD a [] ++
      ('-' :: (toB36Digits 5 ((b * 256 + c) * 256 + d)).1.reverse), ?_, ?_⟩
    · rw [encode_eval ha hb hc hd hport, if_pos hp]
    · rw [hp]
      exact decode_encoded_default hwlen hnodup hupper ha hb hc hd
  · refine ⟨wl.getD a [] ++
      ('-' :: (toB36Digits 5 ((b * 256 + c) * 256 + d)).1.reverse) ++
      ('-' :: 'P' :: (toB36Digits 4 port).1.reverse), ?_, ?_⟩
    · rw [encode_eval ha hb hc hd hport, if_neg hp]
    · exact decode_encoded_port hwlen hnodup hupper ha hb hc hd hport

/-- Concrete 256-entry word list used to discharge the word-list
hypotheses in witnesses: word i is the pair of uppercase letters with
indices i / 16 and i % 16. -/
def witnessWordList : List (List Char) :=
  (List.range 256).map (fun i => [Char.ofNat (65 + i / 16), Char.ofNat (65 + i % 16)])

theorem witnessWordList_length : witnessWordList.length = 256 := by
  rw [witnessWordList, List.length_map, List.length_range]

theorem witnessWordList_upper :
    ∀ w ∈ witnessWordList, ∀ ch ∈ w, 65 ≤ ch.toNat ∧ ch.toNat ≤ 90 := by
  intro w hw ch hch
  rw [witnessWordList, List.mem_map] at hw
  obtain ⟨i, hi, rfl⟩ := hw
  rw [List.mem_range] at hi
  rcases List.mem_cons.mp hch with h | h
  · subst h
    rw [toNat_ofNat_of_lt (by omega)]
    omega
  · rcases List.mem_cons.mp h with h | h
    · subst h
      rw [toNat_ofNat_of_lt (by omega)]
      omega
    · simp at h

theorem witnessWordList_nodup : witnessWordList.Nodup := by
  rw [witnessWordList]
  apply List.Nodup.map_on ?_ (List.nodup_range 256)
  intro i hi j hj heq
  rw [List.mem_range] at hi hj
  simp only [List.cons.injEq, and_true] at heq
  obtain ⟨e1, e2⟩ := heq
  have t1 := congrArg Char.toNat e1
  have t2 := congrArg Char.toNat e2
  rw [toNat_ofNat_of_lt (by omega), toNat_ofNat_of_lt (by omega)] at t1
  rw [toNat_ofNat_of_lt (by omega), toNat_ofNat_of_lt (by omega)] at t2
  omega

/-- Witness for C1 at a concrete word list, address and port. -/
theorem C1_encode_decode_roundtrip_witness :
    ∃ code,
      encode_discovery_code witnessWordList (inet_ntoa 203 0 113 5) 8080 =
        Except.ok code ∧
      decode_discovery_code witnessWordList code =
        Except.ok (inet_ntoa 203 0 113 5, 8080) :=
  C1_encode_decode_roundtrip witnessWordList 203 0 113 5 8080
    witnessWordList_length witnessWordList_nodup witnessWordList_upper
    (by decide) (by decide) (by decide) (by decide) (by decide)

/-- C8: for every IPv4 address string (ranged over canonical dotted quads)
the encoding with the default port 19900 contains exactly one dash (two
segments), and with any other port in [0, 65535] exactly two dashes (three
segments). The word list is any list of uppercase tokens as the spec fixes
(wordlist.txt is absent from the source snapshot). -/
theorem C8_default_port_omission (wl : List (List Char)) (a b c d port : Nat)
    (hwlen : wl.length = 256) (hnodup : wl.Nodup)
    (hupper : ∀ w ∈ wl, ∀ ch ∈ w, 65 ≤ ch.toNat ∧ ch.toNat ≤ 90)
    (ha : a < 256) (hb : b < 256) (hc : c < 256) (hd : d < 256)
    (hport : port ≤ 65535) :
    ∃ code, encode_discovery_code wl (inet_ntoa a b c d) port = Except.ok code ∧
      code.count '-' = (if port = DEFAULT_IPX_PORT then 1 else 2) := by
  have ha' : a < wl.length := by omega
  have hwb := word_char_bounds hupper ha'
  have hwcount : (wl.getD a []).count '-' = 0 := by
    rw [List.count_eq_zero]
    intro hmem
    have := (char_facts_of_bounds (hwb '-' hmem).1 (hwb '-' hmem).2).2.2
    simp at this
  have hd5count : ((toB36Digits 5 ((b * 256 + c) * 256 + d)).1.reverse).count '-' = 0 := by
    rw [List.count_eq_zero]
    intro hmem
    have hb5 := toB36Digits_char_bounds (List.mem_reverse.mp hmem)
    have := (char_facts_of_bounds hb5.1 hb5.2).2.2
    simp at this
  have hd4count : ((toB36Digits 4 port).1.reverse).count '-' = 0 := by
    rw [List.count_eq_zero]
    intro hmem
    have hb4 := toB36Digits_char_bounds (List.mem_reverse.mp hmem)
    have := (char_facts_of_bounds hb4.1 hb4.2).2.2
    simp at this
  rw [encode_eval ha hb hc hd hport]
  by_cases hp : port = DEFAULT_IPX_PORT
  · refine ⟨_, by rw [if_pos hp], ?_⟩
    rw [if_pos hp]
    simp [List.count_append, List.count_cons, hd5count]
    simpa using hwcount
  · refine ⟨_, by rw [if_neg hp], ?_⟩
    rw [if_neg hp]
    simp [List.count_append, List.count_cons, hd5count, hd4count]
    simpa using hwcount

/-- Witness for C8 at a concrete word list, address and ports. -/
theorem C8_default_port_omission_witness :
    ∃ code,
      encode_discovery_code witnessWordList (inet_ntoa 10 0 0 1) 19900 =
        Except.ok code ∧
      code.count '-' = (if 19900 = DEFAULT_IPX_PORT then 1 else 2) :=
  C8_default_port_omission witnessWordList 10 0 0 1 19900
    witnessWordList_length witnessWordList_nodup witnessWordList_upper
    (by decide) (by decide) (by decide) (by decide) (by decide)

/-- A mapper whose gateway has been discovered, used by witnesses; the
values mirror the fixture of tests/test_upnp.py. -/
def discoveredMapper : UPnPPortMapper :=
  ⟨some "http://192.168.1.1:1780/control/WANIPConnection",
   some "urn:schemas-upnp-org:service:WANIPConnection:1", []⟩

/-- C2: on a mapper with a discovered gateway, `verify_port_mapping` issues
exactly one SOAP `GetSpecificPortMappingEntry` query and returns true if
and only if the router's response does not signal a fault (the SOAP
request does not raise). Modelled from the spec: the method body is absent
from the source snapshot. -/
theorem C2_verify_port_mapping (m : UPnPPortMapper) (external_port : Nat)
    (protocol : String) (net : NetResult) (h : m.noGateway = false) :
    ((m.verify_port_mapping external_port net protocol).2.1 = true ↔
      ∃ r, net = NetResult.ok r) ∧
    (m.verify_port_mapping external_port net protocol).2.2 =
      [⟨"GetSpecificPortMappingEntry",
        _GET_SPECIFIC_PORT_MAPPING_BODY (m.service_type.getD "")
          external_port protocol⟩] := by
  cases net with
  | ok r => simp [UPnPPortMapper.verify_port_mapping, h]
  | exn => simp [UPnPPortMapper.verify_port_mapping, h]

/-- Witness for C2 on a concrete discovered mapper. -/
theorem C2_verify_port_mapping_witness :
    discoveredMapper.noGateway = false ∧
    (((discoveredMapper.verify_port_mapping 19900 (NetResult.ok "<ok/>")
        "UDP").2.1 = true ↔ ∃ r, NetResult.ok "<ok/>" = NetResult.ok r) ∧
      (discoveredMapper.verify_port_mapping 19900 (NetResult.ok "<ok/>")
        "UDP").2.2 =
        [⟨"GetSpecificPortMappingEntry",
          _GET_SPECIFIC_PORT_MAPPING_BODY (discoveredMapper.service_type.getD "")
            19900 "UDP"⟩]) :=
  ⟨rfl, C2_verify_port_mapping discoveredMapper 19900 "UDP"
    (NetResult.ok "<ok/>") rfl⟩

/-- C3 counterexample: on a fresh mapper (no gateway discovered),
`delete_port_mapping` and `get_external_ip` return ordinary failure values
(false resp. None) with no SOAP call issued, instead of raising the typed
no-gateway error as the claim states for all four operations. -/
theorem C3_counterexample :
    UPnPPortMapper.init.delete_port_mapping 19900 NetResult.exn "UDP" =
      (UPnPPortMapper.init, false, []) ∧
    UPnPPortMapper.init.get_external_ip NetResult.exn
      (fun _ => Except.ok none) = (none, []) ∧
    UPnPPortMapper.init.verify_port_mapping 19900 NetResult.exn "UDP" =
      (UPnPPortMapper.init, false, []) := by
  refine ⟨rfl, rfl, rfl⟩

/-- C3 amended: with no gateway discovered, only `add_port_mapping` raises
the typed `UPnPError`; `delete_port_mapping` returns false,
`verify_port_mapping` returns false, and `get_external_ip` returns None,
none of them raising and none issuing a SOAP call. -/
theorem C3_no_gateway_behavior (m : UPnPPortMapper) (ep : Nat)
    (ip proto : String) (net : NetResult)
    (extract : String → Except Unit (Option String))
    (h : m.noGateway = true) :
    m.add_port_mapping ep ip net none proto =
      Except.error "No gateway discovered. Call discover_gateway() first." ∧
    m.delete_port_mapping ep net proto = (m, false, []) ∧
    m.verify_port_mapping ep net proto = (m, false, []) ∧
    m.get_external_ip net extract = (none, []) := by
  refine ⟨?_, ?_, ?_, ?_⟩
  · simp [UPnPPortMapper.add_port_mapping, h]
  · simp [UPnPPortMapper.delete_port_mapping, h]
  · simp [UPnPPortMapper.verify_port_mapping, h]
  · simp [UPnPPortMapper.get_external_ip, h]

/-- Witness for C3 on the fresh mapper. -/
theorem C3_no_gateway_behavior_witness :
    UPnPPortMapper.init.noGateway = true ∧
    (UPnPPortMapper.init.add_port_mapping 19900 "192.168.1.42" NetResult.exn
        none "UDP" =
      Except.error "No gateway discovered. Call discover_gateway() first." ∧
    UPnPPortMapper.init.delete_port_mapping 19900 NetResult.exn "UDP" =
      (UPnPPortMapper.init, false, []) ∧
    UPnPPortMapper.init.verify_port_mapping 19900 NetResult.exn "UDP" =
      (UPnPPortMapper.init, false, []) ∧
    UPnPPortMapper.init.get_external_ip NetResult.exn
      (fun _ => Except.ok none) = (none, [])) :=
  ⟨rfl, C3_no_gateway_behavior UPnPPortMapper.init 19900 "192.168.1.42" "UDP"
    NetResult.exn (fun _ => Except.ok none) rfl⟩

/-- C4: `discover_gateway` returns true exactly on success (a nonempty
SSDP LOCATION was found and descriptor parsing returned without exception
with a non-None control URL) and false on every failure; being a total
function of the environment outcomes, no exception escapes. In particular
on a fresh mapper with no SSDP reply it returns false with the state
unchanged, and a subsequent `add_port_mapping` raises the no-gateway
`UPnPError`. -/
theorem C4_discover_gateway (m : UPnPPortMapper) (ssdp : Option String)
    (px : Except Unit (Option (String × String))) (ep : Nat)
    (ip : String) (net : NetResult) :
    ((m.discover_gateway ssdp px).2 = true ↔
      (∃ loc, ssdp = some loc ∧ loc.isEmpty = false ∧
        ∃ cu st, px = Except.ok (some (cu, st)))) ∧
    UPnPPortMapper.init.discover_gateway none px =
      (UPnPPortMapper.init, false) ∧
    (UPnPPortMapper.init.discover_gateway none px).1.add_port_mapping ep ip
        net =
      Except.error "No gateway discovered. Call discover_gateway() first." := by
  refine ⟨?_, rfl, rfl⟩
  cases ssdp with
  | none => simp [UPnPPortMapper.discover_gateway]
  | some loc =>
    by_cases hl : loc.isEmpty
    · simp [UPnPPortMapper.discover_gateway, hl]
    · cases px with
      | error e => simp [UPnPPortMapper.discover_gateway, hl]
      | ok p =>
        cases p with
        | none => simp [UPnPPortMapper.discover_gateway, hl]
        | some q =>
          obtain ⟨cu, st⟩ := q
          simp [UPnPPortMapper.discover_gateway, hl]

/-- C7 counterexample: after a successful discovery, a second
`discover_gateway` call that fails in the SSDP phase returns false and yet
leaves the stale control URL populated, contradicting the claim that the
descriptor is absent after any call returning false. -/
theorem C7_counterexample :
    (((UPnPPortMapper.init.discover_gateway (some "http://gw/desc.xml")
        (Except.ok (some ("http://gw/ctl", "urn:svc")))).1.discover_gateway
        none (Except.error ())).2 = false) ∧
    (((UPnPPortMapper.init.discover_gateway (some "http://gw/desc.xml")
        (Except.ok (some ("http://gw/ctl", "urn:svc")))).1.discover_gateway
        none (Except.error ())).1.control_url = some "http://gw/ctl") := by
  refine ⟨rfl, rfl⟩

/-- C7 amended: the descriptor is populated exactly by a successful
discovery call, and on a fresh mapper any failing call leaves it absent;
but a failing call on a previously discovered mapper can leave the stale
descriptor in place (the SSDP-failure and parse-exception paths do not
clear the state), so "absent after any false-returning call" holds only
from the fresh state. -/
theorem C7_descriptor_lifecycle (m : UPnPPortMapper) (ssdp : Option String)
    (px : Except Unit (Option (String × String))) :
    ((m.discover_gateway ssdp px).2 = true →
      (m.discover_gateway ssdp px).1.control_url.isSome = true) ∧
    ((UPnPPortMapper.init.discover_gateway ssdp px).2 = false →
      (UPnPPortMapper.init.discover_gateway ssdp px).1.control_url = none ∧
      (UPnPPortMapper.init.discover_gateway ssdp px).1.service_type = none) := by
  cases ssdp with
  | none => simp [UPnPPortMapper.discover_gateway, UPnPPortMapper.init]
  | some loc =>
    by_cases hl : loc.isEmpty
    · simp [UPnPPortMapper.discover_gateway, hl, UPnPPortMapper.init]
    · cases px with
      | error e => simp [UPnPPortMapper.discover_gateway, hl, UPnPPortMapper.init]
      | ok p =>
        cases p with
        | none => simp [UPnPPortMapper.discover_gateway, hl, UPnPPortMapper.init]
        | some q =>
          obtain ⟨cu, st⟩ := q
          constructor
          · intro _
            simp [UPnPPortMapper.discover_gateway, hl]
          · intro hfalse
            simp [UPnPPortMapper.discover_gateway, hl] at hfalse

/-- C9 counterexample: two `register_cleanup` calls on the same mapper
instance leave its cleanup registered twice with the exit hook, refuting
"exactly once per instance, regardless of how many times it is called". -/
theorem C9_counterexample :
    ¬((register_cleanup 0 (register_cleanup 0 [])).count 0 = 1) := by
  decide

/-- C9 amended: each `register_cleanup` call appends exactly one
registration of this instance's cleanup to the process exit hook (k calls
yield k registrations; the code never deduplicates); it is the caller in
commands/net.py that invokes it at most once per mapper instance. -/
theorem C9_register_cleanup (mapper_id : Nat) (registry : List Nat) :
    (register_cleanup mapper_id registry).count mapper_id =
      registry.count mapper_id + 1 ∧
    (register_cleanup mapper_id registry).length = registry.length + 1 := by
  unfold register_cleanup atexit_register
  constructor
  · rw [List.count_append]
    simp
  · simp

theorem delete_preserves_gateway (m : UPnPPortMapper) (ep : Nat)
    (net : NetResult) (proto : String) :
    (m.delete_port_mapping ep net proto).1.control_url = m.control_url ∧
    (m.delete_port_mapping ep net proto).1.service_type = m.service_type := by
  unfold UPnPPortMapper.delete_port_mapping
  by_cases h : m.noGateway
  · simp [h]
  · cases net with
    | ok r => simp [h]
    | exn => simp [h]

theorem noGateway_eq_of_fields {m1 m2 : UPnPPortMapper}
    (h1 : m1.control_url = m2.control_url)
    (h2 : m1.service_type = m2.service_type) :
    m1.noGateway = m2.noGateway := by
  unfold UPnPPortMapper.noGateway
  rw [h1, h2]

theorem cleanupGo_trace {snapshot : List (Nat × String)} :
    ∀ {m : UPnPPortMapper}, m.noGateway = false → ∀ {p : Nat × String},
    p ∈ snapshot → ∀ (nets : Nat → NetResult) (i : Nat),
    (⟨"DeletePortMapping",
      _DELETE_PORT_MAPPING_BODY (m.service_type.getD "") p.1 p.2⟩ : SoapCall) ∈
      (cleanupGo m snapshot nets i).2 := by
  induction snapshot with
  | nil =>
    intro m hm p hp
    simp at hp
  | cons q rest ih =>
    intro m hm p hp nets i
    obtain ⟨ep, proto⟩ := q
    have hpres := delete_preserves_gateway m ep (nets i) proto
    have hng : (m.delete_port_mapping ep (nets i) proto).1.noGateway = false := by
      rw [noGateway_eq_of_fields hpres.1 hpres.2]
      exact hm
    simp only [cleanupGo, List.mem_append]
    rcases List.mem_cons.mp hp with hq | hq
    · left
      subst hq
      unfold UPnPPortMapper.delete_port_mapping
      rw [if_neg (by simp [hm])]
      cases nets i with
      | ok r => simp
      | exn => simp
    · right
      have := ih hng hq nets (i + 1)
      rw [hpres.2] at this
      exact this

/-- C10: the tracked-mappings collection is a list that admits duplicates:
on a mapper with a discovered gateway, two successful `add_port_mapping`
calls for the same (external port, protocol) pair append two entries; one
successful `delete_port_mapping` for the pair removes exactly one entry,
leaving the pair still tracked; and `cleanup` on the resulting mapper
still issues a `DeletePortMapping` SOAP call for that pair. -/
theorem C10_duplicate_tracking (m : UPnPPortMapper) (ep : Nat)
    (ip proto r1 r2 r3 : String) (nets : Nat → NetResult)
    (h : m.noGateway = false) :
    ∃ m1 tr1 m2 tr2 m3 tr3,
      m.add_port_mapping ep ip (NetResult.ok r1) none proto =
        Except.ok (m1, true, tr1) ∧
      m1.add_port_mapping ep ip (NetResult.ok r2) none proto =
        Except.ok (m2, true, tr2) ∧
      m2.registered_mappings.count (ep, proto) =
        m.registered_mappings.count (ep, proto) + 2 ∧
      m2.delete_port_mapping ep (NetResult.ok r3) proto = (m3, true, tr3) ∧
      m3.registered_mappings.count (ep, proto) =
        m.registered_mappings.count (ep, proto) + 1 ∧
      (ep, proto) ∈ m3.registered_mappings ∧
      (⟨"DeletePortMapping",
        _DELETE_PORT_MAPPING_BODY (m3.service_type.getD "") ep proto⟩ :
          SoapCall) ∈ (m3.cleanup nets).2 := by
  have h1 : ({ m with registered_mappings :=
      m.registered_mappings ++ [(ep, proto)] } : UPnPPortMapper).noGateway
      = false := by
    simpa [UPnPPortMapper.noGateway] using h
  have h2 : ({ m with registered_mappings :=
      m.registered_mappings ++ [(ep, proto)] ++ [(ep, proto)] } :
      UPnPPortMapper).noGateway = false := by
    simpa [UPnPPortMapper.noGateway] using h
  have h3 : ({ m with registered_mappings :=
      ((m.registered_mappings ++ [(ep, proto)] ++ [(ep, proto)]).erase (ep, proto)) } :
      UPnPPortMapper).noGateway = false := by
    simpa [UPnPPortMapper.noGateway] using h
  have hcnt : ∀ R : List (Nat × String),
      (R ++ [(ep, proto)] ++ [(ep, proto)]).count (ep, proto) =
        R.count (ep, proto) + 2 := by
    intro R
    simp [List.count_append]
  have hcnt2 : ∀ R : List (Nat × String),
      ((R ++ [(ep, proto)] ++ [(ep, proto)]).erase (ep, proto)).count (ep, proto) =
        R.count (ep, proto) + 1 := by
    intro R
    rw [List.count_erase_self, hcnt]
    omega
  have hmem : (ep, proto) ∈
      ((m.registered_mappings ++ [(ep, proto)] ++ [(ep, proto)]).erase (ep, proto)) := by
    rw [← List.count_pos_iff, hcnt2]
    omega
  refine ⟨{ m with registered_mappings := m.registered_mappings ++ [(ep, proto)] },
    [⟨"AddPortMapping", _ADD_PORT_MAPPING_BODY (m.service_type.getD "") ep
      proto ep ip "dosctl" 3600⟩],
    { m with registered_mappings :=
      m.registered_mappings ++ [(ep, proto)] ++ [(ep, proto)] },
    [⟨"AddPortMapping", _ADD_PORT_MAPPING_BODY (m.service_type.getD "") ep
      proto ep ip "dosctl" 3600⟩],
    { m with registered_mappings :=
      ((m.registered_mappings ++ [(ep, proto)] ++ [(ep, proto)]).erase (ep, proto)) },
    [⟨"DeletePortMapping", _DELETE_PORT_MAPPING_BODY (m.service_type.getD "") ep
      proto⟩],
    ?_, ?_, ?_, ?_, ?_, ?_, ?_⟩
  · unfold UPnPPortMapper.add_port_mapping
    rw [if_neg (by simpa [UPnPPortMapper.noGateway] using h)]
    rfl
  · unfold UPnPPortMapper.add_port_mapping
    rw [if_neg (by simpa [UPnPPortMapper.noGateway] using h)]
    rfl
  · exact hcnt m.registered_mappings
  · unfold UPnPPortMapper.delete_port_mapping
    rw [if_neg (by simpa [UPnPPortMapper.noGateway] using h)]
  · exact hcnt2 m.registered_mappings
  · exact hmem
  · exact cleanupGo_trace h3 hmem nets 0

/-- Witness for C10 on a concrete discovered mapper. -/
theorem C10_duplicate_tracking_witness :
    discoveredMapper.noGateway = false ∧
    (∃ m1 tr1 m2 tr2 m3 tr3,
      discoveredMapper.add_port_mapping 19900 "192.168.1.42"
          (NetResult.ok "<ok/>") none "UDP" = Except.ok (m1, true, tr1) ∧
      m1.add_port_mapping 19900 "192.168.1.42" (NetResult.ok "<ok/>") none
          "UDP" = Except.ok (m2, true, tr2) ∧
      m2.registered_mappings.count (19900, "UDP") =
        discoveredMapper.registered_mappings.count (19900, "UDP") + 2 ∧
      m2.delete_port_mapping 19900 (NetResult.ok "<ok/>") "UDP" =
        (m3, true, tr3) ∧
      m3.registered_mappings.count (19900, "UDP") =
        discoveredMapper.registered_mappings.count (19900, "UDP") + 1 ∧
      (19900, "UDP") ∈ m3.registered_mappings ∧
      (⟨"DeletePortMapping",
        _DELETE_PORT_MAPPING_BODY (m3.service_type.getD "") 19900 "UDP"⟩ :
          SoapCall) ∈ (m3.cleanup (fun _ => NetResult.ok "<ok/>")).2) :=
  ⟨rfl, C10_duplicate_tracking discoveredMapper 19900 "192.168.1.42" "UDP"
    "<ok/>" "<ok/>" "<ok/>" (fun _ => NetResult.ok "<ok/>") rfl⟩

/-- A word-list file of 256 lines, each holding the single word "A": the
count invariant holds but all words are equal. -/
def dupLines : List (List Char) := List.replicate 256 ['A']

/-- C6 counterexample: loading a word list whose 256 words are all "A"
succeeds — `_load_word_list` checks only the count, so it does not fail
although distinctness (and hence forward/reverse lookup consistency) is
violated. -/
theorem C6_counterexample :
    _load_word_list dupLines = Except.ok (List.replicate 256 ['A']) ∧
    ¬(List.replicate 256 (['A'] : List Char)).Nodup := by
  constructor
  · rfl
  · decide

/-- C6 amended: the word table is intended to be 256 distinct uppercase
entries, but loading checks only the count: it returns words exactly when
there are 256 of them (and fails otherwise), without checking distinctness
or case; reverse lookup is consistent with forward lookup for every index
whenever the words are distinct. -/
theorem C6_wordlist_load :
    (∀ lines wl, _load_word_list lines = Except.ok wl → wl.length = 256) ∧
    (∀ lines e, _load_word_list lines = Except.error e →
      ¬((lines.foldl (fun ws line =>
        let line := pyStrip line
        if line.isEmpty then ws else ws ++ pySplitWs line) []).length = 256)) ∧
    (∀ wl : List (List Char), wl.Nodup → ∀ i : Nat, ∀ hi : i < wl.length,
      _WORD_TO_INDEX wl (wl.get ⟨i, hi⟩) = some i) := by
  refine ⟨?_, ?_, ?_⟩
  · intro lines wl hok
    unfold _load_word_list at hok
    by_cases hlen : (lines.foldl (fun ws line =>
        let line := pyStrip line
        if line.isEmpty then ws else ws ++ pySplitWs line) []).length = 256
    · rw [if_neg (by omega)] at hok
      simp only [Except.ok.injEq] at hok
      subst hok
      exact hlen
    · rw [if_pos hlen] at hok
      simp at hok
  · intro lines e herr
    unfold _load_word_list at herr
    intro hlen
    rw [if_neg (by omega)] at herr
    simp at herr
  · intro wl hnodup i hi
    unfold _WORD_TO_INDEX
    have hg : wl[i]? = some (wl.get ⟨i, hi⟩) := by
      rw [List.getElem?_eq_getElem hi]
      rfl
    rw [wordIndexFrom_nodup hnodup hg 0]
    simp

theorem fromB36go_error_of_bad {l : List Char}
    (h : ∃ c ∈ l, _B36.contains c = false) :
    ∀ acc, ∃ e, fromB36go acc l = Except.error e := by
  induction l with
  | nil =>
    obtain ⟨c, hc, _⟩ := h
    simp at hc
  | cons c cs ih =>
    intro acc
    obtain ⟨x, hx, hbad⟩ := h
    by_cases hc : _B36.contains c
    · simp only [fromB36go, hc, if_true]
      apply ih
      rcases List.mem_cons.mp hx with he | he
      · subst he
        rw [hc] at hbad
        simp at hbad
      · exact ⟨x, he, hbad⟩
    · refine ⟨"Invalid base36 character", ?_⟩
      simp only [fromB36go]
      rw [if_neg hc]

theorem mem_of_mem_pyStrip {l : List Char} {c : Char} (h : c ∈ pyStrip l) :
    c ∈ l := by
  unfold pyStrip at h
  rw [List.mem_reverse] at h
  have h2 := (List.dropWhile_sublist isPySpace).subset h
  rw [List.mem_reverse] at h2
  exact (List.dropWhile_sublist isPySpace).subset h2

theorem normalized_upper_stable {code0 : List Char} {c : Char}
    (h : c ∈ pyStrip (code0.map pyToUpper)) : pyToUpper c = c := by
  obtain ⟨c0, _, rfl⟩ := List.mem_map.mp (mem_of_mem_pyStrip h)
  exact pyToUpper_idem c0

theorem splitGo_subset (p : Char → Bool) (s : List Char) :
    (∀ x ∈ (splitGo p s).1, x ∈ s) ∧
    (∀ l ∈ (splitGo p s).2, ∀ x ∈ l, x ∈ s) := by
  induction s with
  | nil => simp [splitGo]
  | cons c cs ih =>
    by_cases hc : p c
    · simp only [splitGo, hc, if_true]
      refine ⟨by simp, ?_⟩
      intro l hl x hx
      rcases List.mem_cons.mp hl with he | he
      · subst he
        exact List.mem_cons_of_mem c (ih.1 x hx)
      · exact List.mem_cons_of_mem c (ih.2 l he x hx)
    · simp only [splitGo, hc, if_false]
      refine ⟨?_, ?_⟩
      · intro x hx
        rcases List.mem_cons.mp hx with he | he
        · subst he
          exact List.mem_cons_self x cs
        · exact List.mem_cons_of_mem c (ih.1 x he)
      · intro l hl x hx
        exact List.mem_cons_of_mem c (ih.2 l hl x hx)

theorem mem_part_splitP {p : Char → Bool} {s : List Char} {part : List Char}
    (hpart : part ∈ splitP p s) : ∀ x ∈ part, x ∈ s := by
  unfold splitP at hpart
  rcases List.mem_cons.mp hpart with he | he
  · subst he
    exact (splitGo_subset p s).1
  · exact (splitGo_subset p s).2 part he

theorem mem_getD_splitP {p : Char → Bool} {s : List Char} {i : Nat} :
    ∀ x ∈ (splitP p s).getD i [], x ∈ s := by
  intro x hx
  by_cases hi : i < (splitP p s).length
  · exact mem_part_splitP (getD_mem_of_lt hi) x hx
  · rw [List.getD_eq_getElem?_getD, List.getElem?_eq_none (by omega)] at hx
    simp at hx

theorem decode_success_shape (wl : List (List Char)) (code0 : List Char)
    (ip : List Char) (port : Nat)
    (hok : decode_discovery_code wl code0 = Except.ok (ip, port)) :
    ((splitChar '-' (pyStrip (code0.map pyToUpper))).length = 2 ∨
      (splitChar '-' (pyStrip (code0.map pyToUpper))).length = 3) ∧
    ((splitChar '-' (pyStrip (code0.map pyToUpper))).getD 1 []).length = 5 ∧
    (∃ r, _from_base36 ((splitChar '-' (pyStrip (code0.map pyToUpper))).getD 1 []) =
      Except.ok r ∧ ¬r > 0xFFFFFF) ∧
    ((splitChar '-' (pyStrip (code0.map pyToUpper))).length = 3 →
      ((splitChar '-' (pyStrip (code0.map pyToUpper))).getD 2 []).head? = some 'P' ∧
      ((splitChar '-' (pyStrip (code0.map pyToUpper))).getD 2 []).length = 5 ∧
      ∃ p, _from_base36
        (((splitChar '-' (pyStrip (code0.map pyToUpper))).getD 2 []).drop 1) =
          Except.ok p ∧ ¬p > 65535 ∧ port = p) ∧
    ((splitChar '-' (pyStrip (code0.map pyToUpper))).length ≠ 3 →
      port = DEFAULT_IPX_PORT) := by
  simp only [decode_discovery_code] at hok
  split at hok
  · exact absurd hok (by simp)
  next hc1 =>
    split at hok
    next hW => exact absurd hok (by simp)
    next a hW =>
      split at hok
      next hlen5 => exact absurd hok (by simp)
      next hlen5 =>
        split at hok
        next e hF => exact absurd hok (by simp)
        next r hF =>
          split at hok
          next hrb => exact absurd hok (by simp)
          next hrb =>
            split at hok
            next hlen3 =>
              split at hok
              next hbadp => exact absurd hok (by simp)
              next hbadp =>
                split at hok
                next e hPF => exact absurd hok (by simp)
                next p hPF =>
                  split at hok
                  next hpb => exact absurd hok (by simp)
                  next hpb =>
                    simp only [Except.ok.injEq, Prod.mk.injEq] at hok
                    push_neg at hbadp
                    refine ⟨by omega, by omega, ⟨r, hF, hrb⟩, ?_, ?_⟩
                    · intro _
                      exact ⟨hbadp.1, hbadp.2, p, hPF, hpb, hok.2.symm⟩
                    · intro hne
                      exact absurd hlen3 hne
            next hlen3 =>
              simp only [Except.ok.injEq, Prod.mk.injEq] at hok
              refine ⟨by omega, by omega, ⟨r, hF, hrb⟩, ?_, ?_⟩
              · intro h3
                exact absurd h3 hlen3
              · intro _
                exact hok.2.symm

/-- C5: decode validation. With `parts` the result of splitting the
normalized (uppercased, stripped) input on dashes: decode fails when the
split does not yield exactly 2 or 3 segments; it fails when the second
segment is not exactly 5 base-36 characters or decodes to a value above
0xFFFFFF; it fails when a present third segment is not a literal letter P
followed by exactly 4 base-36 digits or encodes a port above 65535; and
when decode succeeds on a 2-segment code the returned port is 19900. -/
theorem C5_decode_validation (wl : List (List Char)) (code0 : List Char) :
    (((splitChar '-' (pyStrip (code0.map pyToUpper))).length < 2 ∨
        (splitChar '-' (pyStrip (code0.map pyToUpper))).length > 3) →
      ∃ e, decode_discovery_code wl code0 = Except.error e) ∧
    ((((splitChar '-' (pyStrip (code0.map pyToUpper))).getD 1 []).length ≠ 5 ∨
        (∃ c ∈ (splitChar '-' (pyStrip (code0.map pyToUpper))).getD 1 [],
          _B36.contains c = false) ∨
        (∃ r, _from_base36
            ((splitChar '-' (pyStrip (code0.map pyToUpper))).getD 1 []) =
          Except.ok r ∧ r > 0xFFFFFF)) →
      ∃ e, decode_discovery_code wl code0 = Except.error e) ∧
    ((splitChar '-' (pyStrip (code0.map pyToUpper))).length = 3 ∧
      (¬(((splitChar '-' (pyStrip (code0.map pyToUpper))).getD 2 []).head? =
            some 'P' ∧
         ((splitChar '-' (pyStrip (code0.map pyToUpper))).getD 2 []).length = 5 ∧
         ∀ c ∈ ((splitChar '-' (pyStrip (code0.map pyToUpper))).getD 2 []).drop 1,
           _B36.contains c = true) ∨
       (∃ p, _from_base36
           (((splitChar '-' (pyStrip (code0.map pyToUpper))).getD 2 []).drop 1) =
         Except.ok p ∧ p > 65535)) →
      ∃ e, decode_discovery_code wl code0 = Except.error e) ∧
    (∀ ip port, decode_discovery_code wl code0 = Except.ok (ip, port) →
      (splitChar '-' (pyStrip (code0.map pyToUpper))).length = 2 →
      port = DEFAULT_IPX_PORT) := by
  refine ⟨?_, ?_, ?_, ?_⟩
  · intro hcond
    cases hres : decode_discovery_code wl code0 with
    | error e => exact ⟨e, rfl⟩
    | ok v =>
      obtain ⟨ip, port⟩ := v
      rcases (decode_success_shape wl code0 ip port hres).1 with h2 | h3
      · rw [h2] at hcond
        simp at hcond
      · rw [h3] at hcond
        simp at hcond
  · intro hcond2
    cases hres : decode_discovery_code wl code0 with
    | error e => exact ⟨e, rfl⟩
    | ok v =>
      obtain ⟨ip, port⟩ := v
      have hs := decode_success_shape wl code0 ip port hres
      obtain ⟨r, hF, hrb⟩ := hs.2.2.1
      rcases hcond2 with hlen | ⟨x, hx, hbad⟩ | ⟨r0, hr0, hr0b⟩
      · exact absurd hs.2.1 hlen
      · have hupst : ∀ y ∈ (splitChar '-' (pyStrip (code0.map pyToUpper))).getD 1 [],
            pyToUpper y = y := by
          intro y hy
          exact normalized_upper_stable (mem_getD_splitP y hy)
        have hmap := map_pyToUpper_self hupst
        obtain ⟨e, he⟩ := fromB36go_error_of_bad ⟨x, hx, hbad⟩ 0
        have herr : _from_base36
            ((splitChar '-' (pyStrip (code0.map pyToUpper))).getD 1 []) =
            Except.error e := by
          unfold _from_base36
          rw [hmap]
          exact he
        rw [hF] at herr
        exact absurd herr (by simp)
      · rw [hr0] at hF
        simp only [Except.ok.injEq] at hF
        omega
  · rintro ⟨hlen3, hbad⟩
    cases hres : decode_discovery_code wl code0 with
    | error e => exact ⟨e, rfl⟩
    | ok v =>
      obtain ⟨ip, port⟩ := v
      have hs := decode_success_shape wl code0 ip port hres
      obtain ⟨hhead, hplen, p, hPF, hpb, hpe⟩ := hs.2.2.2.1 hlen3
      rcases hbad with hb | ⟨p0, hp0, hp0b⟩
      · have hnall : ¬(∀ c ∈ ((splitChar '-'
            (pyStrip (code0.map pyToUpper))).getD 2 []).drop 1,
            _B36.contains c = true) := fun hall => hb ⟨hhead, hplen, hall⟩
        push_neg at hnall
        obtain ⟨x, hx, hxb⟩ := hnall
        have hxbad : _B36.contains x = false := by
          simpa using hxb
        have hupst : ∀ y ∈ ((splitChar '-'
            (pyStrip (code0.map pyToUpper))).getD 2 []).drop 1,
            pyToUpper y = y := by
          intro y hy
          exact normalized_upper_stable
            (mem_getD_splitP y (List.drop_subset 1 _ hy))
        have hmap := map_pyToUpper_self hupst
        obtain ⟨e, he⟩ := fromB36go_error_of_bad ⟨x, hx, hxbad⟩ 0
        have herr : _from_base36 (((splitChar '-'
            (pyStrip (code0.map pyToUpper))).getD 2 []).drop 1) =
            Except.error e := by
          unfold _from_base36
          rw [hmap]
          exact he
        rw [hPF] at herr
        exact absurd herr (by simp)
      · rw [hp0] at hPF
        simp only [Except.ok.injEq] at hPF
        omega
  · intro ip port hok hlen2
    have hs := decode_success_shape wl code0 ip port hok
    have hne : (splitChar '-' (pyStrip (code0.map pyToUpper))).length ≠ 3 := by
      rw [hlen2]
      decide
    exact hs.2.2.2.2 hne
